import Mathlib

/-!
Shallow embedding of the audio sniffing, multi-attempt transcription
pipeline, document extraction and text-to-speech selection logic of the
Capstone repository (src/audio_utils.py, src/services.py,
src/translate_tts_app.py, src/streamlit_app.py).

Byte buffers are modelled as `List Nat` (one entry per byte), Python `None`
as `Option.none`, and every call to an external service or parsing library
(the Google speech recognizer, PyPDF2 page extraction, pandas readers) as an
oracle function passed in as an argument, with `none` standing for a raised
exception.  All functions are total, which models the fact that the Python
functions under consideration catch every exception at their boundary.
-/

/-- A byte buffer: each entry is one byte (0..255). -/
abbrev ByteBuf := List Nat

/-- The ASCII bytes of the string RIFF. -/
def riffMagic : ByteBuf := [0x52, 0x49, 0x46, 0x46]

/-- The ASCII bytes of the string WAVE. -/
def waveMagic : ByteBuf := [0x57, 0x41, 0x56, 0x45]

/-- The ASCII bytes of the string OggS. -/
def oggMagic : ByteBuf := [0x4F, 0x67, 0x67, 0x53]

/-- The EBML magic 0x1A 0x45 0xDF 0xA3 of WebM/Matroska. -/
def webmMagic : ByteBuf := [0x1A, 0x45, 0xDF, 0xA3]

/-- The ASCII bytes of the four-character chunk id of the fmt chunk
(f, m, t, space). -/
def fmtMagic : ByteBuf := [0x66, 0x6D, 0x74, 0x20]

/-- The ASCII bytes of the string data. -/
def dataMagic : ByteBuf := [0x64, 0x61, 0x74, 0x61]

/-- audio_utils.is_wav: length at least 12, bytes 0..3 are RIFF and
bytes 8..11 are WAVE. -/
def is_wav (b : ByteBuf) : Bool :=
  decide (12 ≤ b.length) && b.take 4 == riffMagic && (b.drop 8).take 4 == waveMagic

/-- audio_utils.is_ogg: length at least 4 and bytes 0..3 are OggS. -/
def is_ogg (b : ByteBuf) : Bool :=
  decide (4 ≤ b.length) && b.take 4 == oggMagic

/-- audio_utils.is_webm: length at least 4 and bytes 0..3 are the EBML magic. -/
def is_webm (b : ByteBuf) : Bool :=
  decide (4 ≤ b.length) && b.take 4 == webmMagic

/-- Is `c` a UTF-8 continuation byte (0x80..0xBF)? -/
def isCont (c : Nat) : Bool := 0x80 ≤ c && c ≤ 0xBF

/-- CPython UTF-8 decoding with the "ignore" error handler, as performed by
`bytes.decode("utf-8", errors="ignore")` in the txt branch of
extract_text_from_file.  Ill-formed subsequences are skipped following
CPython's maximal-subpart convention: an invalid start byte is skipped alone;
a start byte whose first continuation byte is out of its admissible range is
skipped alone; otherwise the start byte together with the valid continuation
bytes seen so far is skipped.  A sequence truncated at the end of the buffer
is skipped as well.  Only ASCII bytes appear in the repository's inputs of
interest, but the full byte range is handled. -/
def utf8IgnoreAux : Nat → ByteBuf → List Char
  | 0, _ => []
  | _ + 1, [] => []
  | fuel + 1, b :: rest =>
    if b < 0x80 then Char.ofNat b :: utf8IgnoreAux fuel rest
    else if b < 0xC2 then utf8IgnoreAux fuel rest
    else if b ≤ 0xDF then
      match rest with
      | [] => []
      | c1 :: r1 =>
        if isCont c1 then
          Char.ofNat ((b - 0xC0) * 0x40 + (c1 - 0x80)) :: utf8IgnoreAux fuel r1
        else utf8IgnoreAux fuel (c1 :: r1)
    else if b ≤ 0xEF then
      let lo := if b = 0xE0 then 0xA0 else 0x80
      let hi := if b = 0xED then 0x9F else 0xBF
      match rest with
      | [] => []
      | c1 :: r1 =>
        if lo ≤ c1 && c1 ≤ hi then
          match r1 with
          | [] => []
          | c2 :: r2 =>
            if isCont c2 then
              Char.ofNat ((b - 0xE0) * 0x1000 + (c1 - 0x80) * 0x40 + (c2 - 0x80)) ::
                utf8IgnoreAux fuel r2
            else utf8IgnoreAux fuel r1
        else utf8IgnoreAux fuel (c1 :: r1)
    else if b ≤ 0xF4 then
      let lo := if b = 0xF0 then 0x90 else 0x80
      let hi := if b = 0xF4 then 0x8F else 0xBF
      match rest with
      | [] => []
      | c1 :: r1 =>
        if lo ≤ c1 && c1 ≤ hi then
          match r1 with
          | [] => []
          | c2 :: r2 =>
            if isCont c2 then
              match r2 with
              | [] => []
              | c3 :: r3 =>
                if isCont c3 then
                  Char.ofNat ((b - 0xF0) * 0x40000 + (c1 - 0x80) * 0x1000 +
                    (c2 - 0x80) * 0x40 + (c3 - 0x80)) :: utf8IgnoreAux fuel r3
                else utf8IgnoreAux fuel r2
            else utf8IgnoreAux fuel r1
        else utf8IgnoreAux fuel (c1 :: r1)
    else utf8IgnoreAux fuel rest

/-- Entry point of the ignore-handler decoder.  Every recursive call of
`utf8IgnoreAux` strictly shortens the byte list while spending exactly one
unit of fuel, so starting with the list's length the fuel can never be
exhausted and the fuel-0 branch is unreachable. -/
def utf8Ignore (b : ByteBuf) : List Char := utf8IgnoreAux b.length b

/-- The Unicode replacement character U+FFFD. -/
def replacementChar : Char := '�'

/-- Modelled from the spec: the txt branch is described as "decode as UTF-8
text, replacing undecodable bytes rather than failing", i.e.
`bytes.decode("utf-8", errors="replace")`.  Identical to `utf8Ignore` except
that every skipped ill-formed subsequence contributes one U+FFFD character.
This definition follows the spec's words and is compared against the
behaviour found in the source (which uses the "ignore" handler). -/
def utf8ReplaceAux : Nat → ByteBuf → List Char
  | 0, _ => []
  | _ + 1, [] => []
  | fuel + 1, b :: rest =>
    if b < 0x80 then Char.ofNat b :: utf8ReplaceAux fuel rest
    else if b < 0xC2 then replacementChar :: utf8ReplaceAux fuel rest
    else if b ≤ 0xDF then
      match rest with
      | [] => [replacementChar]
      | c1 :: r1 =>
        if isCont c1 then
          Char.ofNat ((b - 0xC0) * 0x40 + (c1 - 0x80)) :: utf8ReplaceAux fuel r1
        else replacementChar :: utf8ReplaceAux fuel (c1 :: r1)
    else if b ≤ 0xEF then
      let lo := if b = 0xE0 then 0xA0 else 0x80
      let hi := if b = 0xED then 0x9F else 0xBF
      match rest with
      | [] => [replacementChar]
      | c1 :: r1 =>
        if lo ≤ c1 && c1 ≤ hi then
          match r1 with
          | [] => [replacementChar]
          | c2 :: r2 =>
            if isCont c2 then
              Char.ofNat ((b - 0xE0) * 0x1000 + (c1 - 0x80) * 0x40 + (c2 - 0x80)) ::
                utf8ReplaceAux fuel r2
            else replacementChar :: utf8ReplaceAux fuel r1
        else replacementChar :: utf8ReplaceAux fuel (c1 :: r1)
    else if b ≤ 0xF4 then
      let lo := if b = 0xF0 then 0x90 else 0x80
      let hi := if b = 0xF4 then 0x8F else 0xBF
      match rest with
      | [] => [replacementChar]
      | c1 :: r1 =>
        if lo ≤ c1 && c1 ≤ hi then
          match r1 with
          | [] => [replacementChar]
          | c2 :: r2 =>
            if isCont c2 then
              match r2 with
              | [] => [replacementChar]
              | c3 :: r3 =>
                if isCont c3 then
                  Char.ofNat ((b - 0xF0) * 0x40000 + (c1 - 0x80) * 0x1000 +
                    (c2 - 0x80) * 0x40 + (c3 - 0x80)) :: utf8ReplaceAux fuel r3
                else replacementChar :: utf8ReplaceAux fuel r2
            else replacementChar :: utf8ReplaceAux fuel r1
        else replacementChar :: utf8ReplaceAux fuel (c1 :: r1)
    else replacementChar :: utf8ReplaceAux fuel rest

/-- Entry point of the replace-handler decoder; the fuel argument is handled
exactly as in `utf8Ignore`. -/
def utf8Replace (b : ByteBuf) : List Char := utf8ReplaceAux b.length b

/-- `content.decode("utf-8", errors="ignore")`, the decoding the source uses
in the txt branch of extract_text_from_file. -/
def decodeUtf8Ignore (b : ByteBuf) : String := ⟨utf8Ignore b⟩

/-- Modelled from the spec: `content.decode("utf-8", errors="replace")`, the
decoding the spec describes for the txt branch. -/
def decodeUtf8ReplaceSpec (b : ByteBuf) : String := ⟨utf8Replace b⟩

/-- The whitespace characters removed by Python str.strip on the ASCII range
(space, tab, newline, carriage return, vertical tab, form feed). -/
def isPySpace (c : Char) : Bool :=
  c == ' ' || c == '\t' || c == '\n' || c == '\r' || c == '\x0B' || c == '\x0C'

/-- Python str.strip(): remove leading and trailing whitespace. -/
def pyStrip (s : String) : String :=
  ⟨List.rdropWhile isPySpace (s.data.dropWhile isPySpace)⟩

/-- The little-endian 16-bit value of the first two bytes of a list
(struct.unpack with format <H); only applied to length-checked inputs. -/
def leU16 : ByteBuf → Nat
  | b0 :: b1 :: _ => b0 + 0x100 * b1
  | [b0] => b0
  | [] => 0

/-- The little-endian 32-bit value of the first four bytes of a list
(struct.unpack with format <L); only applied to length-checked inputs. -/
def leU32 : ByteBuf → Nat
  | b0 :: b1 :: b2 :: b3 :: _ => b0 + 0x100 * b1 + 0x10000 * b2 + 0x1000000 * b3
  | _ => 0

/-- chunk.Chunk.read issued through the outer RIFF chunk of wave.open: at
logical position `pos` inside the RIFF chunk (file offset 8 + pos), read `n`
bytes, capped both by the declared RIFF chunk size `size` and by the end of
the actual file `f`.  Returns the bytes obtained and the new position. -/
def chunkRead (f : ByteBuf) (size pos n : Nat) : ByteBuf × Nat :=
  let d := (f.drop (8 + pos)).take (min n (size - pos))
  (d, pos + d.length)

/-- The chunk loop of wave.Wave_read.initfp together with getframerate, over
the byte buffer `f` whose RIFF chunk declares size `size`.  `pos` is the
current position inside the RIFF chunk, `fmtRate` holds the frame rate once a
fmt chunk has been read (fmt_chunk_read), and the loop ends successfully when
a data chunk is found after a fmt chunk.  Every error raised by wave/chunk
(wave.Error, EOFError escaping the fmt parse, RuntimeError from seeking past
the RIFF chunk) is caught by the try/except of wav_samplerate_from_bytes, so
each such path yields `none` here; a short read of a chunk header raises
EOFError inside the loop's try, which breaks the loop with the data chunk
still missing, and initfp then raises wave.Error, again `none`.  `fuel`
bounds the number of iterations: every iteration consumes at least 8 bytes of
the size budget while positions never exceed `size`, so starting the loop
with fuel `size + 1` can never exhaust it. -/
def waveLoop (f : ByteBuf) (size : Nat) : Nat → Nat → Option Nat → Option Nat
  | _, 0, _ => none
  | pos, fuel + 1, fmtRate =>
    let r1 := chunkRead f size pos 4
    if r1.1.length < 4 then none
    else
      let r2 := chunkRead f size r1.2 4
      if r2.1.length < 4 then none
      else
        let csize := leU32 r2.1
        if r1.1 == fmtMagic then
          let r3 := chunkRead f size r2.2 (min 14 csize)
          if r3.1.length < 14 then none
          else
            let wFormatTag := leU16 (r3.1.take 2)
            let nchannels := leU16 ((r3.1.drop 2).take 2)
            let framerate := leU32 ((r3.1.drop 4).take 4)
            if wFormatTag ≠ 1 then none
            else
              let r4 := chunkRead f size r3.2 (min 2 (csize - 14))
              if r4.1.length < 2 then none
              else
                let sampwidth := leU16 r4.1
                if sampwidth = 0 then none
                else if nchannels = 0 then none
                else
                  let n := (csize - 16) + (if csize % 2 = 1 then 1 else 0)
                  if size < r4.2 + n then none
                  else waveLoop f size (r4.2 + n) fuel (some framerate)
        else if r1.1 == dataMagic then
          match fmtRate with
          | none => none
          | some r => some r
        else
          let n := csize + (if csize % 2 = 1 then 1 else 0)
          if size < r2.2 + n then none
          else waveLoop f size (r2.2 + n) fuel fmtRate

/-- audio_utils.wav_samplerate_from_bytes: open the buffer with wave.open and
return getframerate(), with every exception converted to `none` by the
enclosing try/except.  The header reads mirror wave.open: the RIFF chunk id
and its declared size (fewer than 4 bytes available for either raises
EOFError, hence the length checks, which amount to requiring at least 8 bytes
of file), the WAVE form type read through the RIFF chunk, then the chunk
loop. -/
def wav_samplerate_from_bytes (b : ByteBuf) : Option Nat :=
  if b.length < 4 then none
  else if b.length < 8 then none
  else
    let size := leU32 ((b.drop 4).take 4)
    if b.take 4 ≠ riffMagic then none
    else
      let wv := (b.drop 8).take (min 4 size)
      if wv ≠ waveMagic then none
      else waveLoop b size wv.length (size + 1) none

/-- The google.cloud.speech RecognitionConfig.AudioEncoding values used by
transcribe_with_google_stt. -/
inductive AudioEncoding where
  | LINEAR16
  | OGG_OPUS
  | WEBM_OPUS
  | ENCODING_UNSPECIFIED
deriving DecidableEq, Repr

/-- The keyword arguments assembled by the local helper _config of
transcribe_with_google_stt.  `sample_rate_hertz` is `none` when the field is
not set (the Python guard `if sr:` skips both None and 0), and
`alternative_language_codes` is `[]` when not set (the guard `if alt_langs:`
skips both None and the empty list). -/
structure RecognitionConfig where
  encoding : AudioEncoding
  language_code : String
  enable_automatic_punctuation : Bool
  audio_channel_count : Nat
  sample_rate_hertz : Option Nat
  alternative_language_codes : List String
deriving DecidableEq, Repr

/-- The local helper _config of transcribe_with_google_stt. -/
def mkRecognitionConfig (primary_lang : String) (alt_langs : List String)
    (encoding : AudioEncoding) (sr : Option Nat) : RecognitionConfig :=
  ⟨encoding, primary_lang, true, 1,
    match sr with
    | some n => if n = 0 then none else some n
    | none => none,
    alt_langs⟩

/-- Python `a or b` on optional integers: None and 0 are falsy. -/
def pyOrNat (a b : Option Nat) : Option Nat :=
  match a with
  | some n => if n = 0 then b else some n
  | none => b

/-- The response processing inside the local helper _recognize of
transcribe_with_google_stt: take the first alternative of every result that
has alternatives, join the transcripts with a single space, and strip.  A
response is modelled as a list of results, each given as the list of its
alternatives' transcripts. -/
def joinTranscripts (results : List (List String)) : String :=
  pyStrip (String.intercalate " " (results.filterMap List.head?))

/-- The local helper _recognize of transcribe_with_google_stt, with the
external speech_client.recognize call abstracted as the oracle `recognize`;
an oracle value of `none` models a raised exception, which the helper's
try/except converts to None.  A transcript that is empty after stripping is
also turned into None (`return text or None`). -/
def recognizeAttempt (recognize : RecognitionConfig → Option (List (List String)))
    (cfg : RecognitionConfig) : Option String :=
  match recognize cfg with
  | none => none
  | some results =>
    let text := joinTranscripts results
    if text = "" then none else some text

/-- The final loop of transcribe_with_google_stt (`for cfg in attempts: out =
_recognize(cfg); if out: return out` followed by `return None`), instrumented
with the list of configurations actually passed to _recognize, so that early
exit is observable.  The first component is the returned transcript and the
second the invoked configurations in order.  The `out = ""` test mirrors
Python string truthiness (the branch is never taken because _recognize maps
empty text to None, but it is kept for faithfulness). -/
def runAttempts (recognize : RecognitionConfig → Option (List (List String))) :
    List RecognitionConfig → Option String × List RecognitionConfig
  | [] => (none, [])
  | cfg :: rest =>
    match recognizeAttempt recognize cfg with
    | some out =>
      if out = "" then
        let r := runAttempts recognize rest
        (r.1, cfg :: r.2)
      else (some out, [cfg])
    | none =>
      let r := runAttempts recognize rest
      (r.1, cfg :: r.2)

/-- The attempt list built by transcribe_with_google_stt: a LINEAR16 attempt
when the bytes sniff as WAV (its sample rate being the declared rate if
truthy, else the rate sniffed from the WAV header), an OGG_OPUS attempt when
they sniff as OGG, a WEBM_OPUS attempt when they sniff as WebM, and always a
final ENCODING_UNSPECIFIED attempt. -/
def buildAttempts (audio_bytes : ByteBuf) (sample_rate_hz : Option Nat)
    (primary_lang : String) (alt_langs : List String) : List RecognitionConfig :=
  (if is_wav audio_bytes then
    [mkRecognitionConfig primary_lang alt_langs .LINEAR16
      (pyOrNat sample_rate_hz (wav_samplerate_from_bytes audio_bytes))]
  else []) ++
  (if is_ogg audio_bytes then
    [mkRecognitionConfig primary_lang alt_langs .OGG_OPUS sample_rate_hz]
  else []) ++
  (if is_webm audio_bytes then
    [mkRecognitionConfig primary_lang alt_langs .WEBM_OPUS sample_rate_hz]
  else []) ++
  [mkRecognitionConfig primary_lang alt_langs .ENCODING_UNSPECIFIED sample_rate_hz]

/-- services.transcribe_with_google_stt (identical logic in
translate_tts_app.transcribe_with_google_stt): build the attempt list, try
each attempt in order, return the first truthy transcript, else None. -/
def transcribe_with_google_stt
    (recognize : RecognitionConfig → Option (List (List String)))
    (audio_bytes : ByteBuf) (sample_rate_hz : Option Nat)
    (primary_lang : String) (alt_langs : List String) : Option String :=
  (runAttempts recognize
    (buildAttempts audio_bytes sample_rate_hz primary_lang alt_langs)).1

/-- An uploaded file handle: its filename and raw content bytes. -/
structure UploadedFile where
  name : String
  content : ByteBuf

/-- Python str.split with separator "." over a character list: split at every
dot, keeping empty pieces; the result is never empty. -/
def splitDot : List Char → List (List Char)
  | [] => [[]]
  | c :: rest =>
    let r := splitDot rest
    if c = '.' then [] :: r
    else
      match r with
      | piece :: rs => (c :: piece) :: rs
      | [] => [[c]]

/-- `file.name.split(".")[-1].lower()`, the extension dispatch key of
extract_text_from_file (ASCII lowering, which covers the repository's
extension strings). -/
def fileExt (name : String) : String :=
  ⟨((splitDot name.data).getLastD []).map Char.toLower⟩

/-- The page loop of the pdf branch of extract_text_from_file: for every
page, try page.extract_text(), skip the page silently when it raises
(`t? = none`), and append its text only when it is truthy (non-empty).  The
input models the pages of PyPDF2.PdfReader: for each page, `none` when
page.extract_text() raises, otherwise its extracted text. -/
def pdfPages (pageTexts : List (Option String)) : List String :=
  pageTexts.filterMap fun t? =>
    match t? with
    | none => none
    | some t => if t = "" then none else some t

/-- services.extract_text_from_file (identical logic in
translate_tts_app.extract_text_from_file): dispatch on the lowercased
extension, with the pdf page loop given by `pdfPages`.  The external
libraries are oracles: `pdfReader` returns the pages of PyPDF2.PdfReader or
`none` when the PdfReader constructor raises; `readCsv` and `readExcel`
return the rendered table text of the pandas readers or `none` on an
exception.  The txt branch decodes with errors="ignore" and cannot raise;
every exception elsewhere is caught by the try/except and becomes None. -/
def extract_text_from_file
    (pdfReader : ByteBuf → Option (List (Option String)))
    (readCsv readExcel : ByteBuf → Option String)
    (file : UploadedFile) : Option String :=
  let ext := fileExt file.name
  if ext = "txt" then some (decodeUtf8Ignore file.content)
  else if ext = "pdf" then
    match pdfReader file.content with
    | none => none
    | some pageTexts =>
      let pages := pdfPages pageTexts
      if pages = [] then none
      else some (String.intercalate "\n" pages)
  else if ext = "csv" then readCsv file.content
  else if ext = "xlsx" then readExcel file.content
  else none

/-- Modelled from the spec: "the concatenation of the text of all pages whose
extraction succeeds, in original page order", read as plain string
concatenation of the successful pages' texts.  Compared against the source's
behaviour. -/
def pdfConcatSpec (pageTexts : List (Option String)) : String :=
  String.join (pageTexts.filterMap id)

/-- Modelled from the spec: the same sentence read as a newline-separated
join of all successful pages' texts (newline being the separator the code
uses).  Compared against the source's behaviour. -/
def pdfNewlineJoinSpec (pageTexts : List (Option String)) : String :=
  String.intercalate "\n" (pageTexts.filterMap id)

/-- Python `a or b` on strings: the empty string is falsy. -/
def pyOrStr (a b : String) : String := if a = "" then b else a

/-- The text selected by the Generate Audio handler of streamlit_app.py /
translate_tts_app.py: `tts_text = (st.session_state.translated_text or
st.session_state.input_text_cache or "").strip()`; when the result is empty
the handler only warns and synthesizes nothing (`none`), otherwise
text_to_speech is called on the selected text (`some`). -/
def generateAudioText (translated_text input_text_cache : String) : Option String :=
  let tts_text := pyStrip (pyOrStr (pyOrStr translated_text input_text_cache) "")
  if tts_text = "" then none else some tts_text

/-- A minimal well-formed 16 kHz mono 16-bit PCM WAV file: RIFF header, fmt
chunk (format tag 1, one channel, frame rate 16000, byte rate 32000, block
align 2, 16 bits per sample) and an empty data chunk. -/
def goodWav16k : ByteBuf :=
  riffMagic ++ [36, 0, 0, 0] ++ waveMagic ++
  fmtMagic ++ [16, 0, 0, 0] ++
  [1, 0] ++ [1, 0] ++ [0x80, 0x3E, 0, 0] ++ [0, 0x7D, 0, 0] ++ [2, 0] ++ [16, 0] ++
  dataMagic ++ [0, 0, 0, 0]

/-- A 12-byte buffer carrying only the RIFF/WAVE markers: the sniffer
classifies it as WAV although its header is too short for wave.open. -/
def wavMarkerOnly : ByteBuf := riffMagic ++ [0, 0, 0, 0] ++ waveMagic

/-- A buffer consisting of the OGG magic alone. -/
def oggMarkerOnly : ByteBuf := oggMagic

/-- A LINEAR16 attempt configuration used in concrete examples. -/
def cfgLinear : RecognitionConfig := ⟨.LINEAR16, "en-US", true, 1, none, []⟩

/-- An OGG_OPUS attempt configuration used in concrete examples. -/
def cfgOgg : RecognitionConfig := ⟨.OGG_OPUS, "en-US", true, 1, none, []⟩

/-- A WEBM_OPUS attempt configuration used in concrete examples. -/
def cfgWebm : RecognitionConfig := ⟨.WEBM_OPUS, "en-US", true, 1, none, []⟩

/-- A concrete recognition oracle: the LINEAR16 attempt yields a response
with no transcribable results, the OGG_OPUS attempt yields a transcript, and
every other attempt raises. -/
def recognizeSecond : RecognitionConfig → Option (List (List String)) :=
  fun cfg =>
    match cfg.encoding with
    | .LINEAR16 => some []
    | .OGG_OPUS => some [["second text"]]
    | _ => none

/-- A concrete recognition oracle that answers every attempt with two result
segments carrying one alternative each and one segment with none. -/
def recognizeHello : RecognitionConfig → Option (List (List String)) :=
  fun _ => some [["hello"], [], ["world"]]

theorem pyStripList_idem (l : List Char) :
    List.rdropWhile isPySpace ((List.rdropWhile isPySpace (l.dropWhile isPySpace)).dropWhile isPySpace)
      = List.rdropWhile isPySpace (l.dropWhile isPySpace) := by
  have hfix : (List.rdropWhile isPySpace (l.dropWhile isPySpace)).dropWhile isPySpace
      = List.rdropWhile isPySpace (l.dropWhile isPySpace) := by
    rcases hg : List.rdropWhile isPySpace (l.dropWhile isPySpace) with _ | ⟨c, cs⟩
    · simp
    · obtain ⟨t, ht⟩ := List.rdropWhile_prefix isPySpace (l.dropWhile isPySpace)
      rw [hg] at ht
      have hl1 : l.dropWhile isPySpace = c :: (cs ++ t) := ht.symm
      have h0 := List.head?_dropWhile_not isPySpace l
      rw [hl1] at h0
      simp only [List.head?_cons] at h0
      simp [List.dropWhile_cons, h0]
  rw [hfix, List.rdropWhile_idempotent]

theorem pyStrip_idem (s : String) : pyStrip (pyStrip s) = pyStrip s :=
  congrArg String.mk (pyStripList_idem s.data)

theorem is_wav_spec (b : ByteBuf) (h : is_wav b = true) :
    12 ≤ b.length ∧ b.take 4 = riffMagic ∧ (b.drop 8).take 4 = waveMagic := by
  simp only [is_wav, Bool.and_eq_true, beq_iff_eq, decide_eq_true_eq] at h
  exact ⟨h.1.1, h.1.2, h.2⟩

theorem is_ogg_spec (b : ByteBuf) (h : is_ogg b = true) :
    4 ≤ b.length ∧ b.take 4 = oggMagic := by
  simp only [is_ogg, Bool.and_eq_true, beq_iff_eq, decide_eq_true_eq] at h
  exact h

theorem is_webm_spec (b : ByteBuf) (h : is_webm b = true) :
    4 ≤ b.length ∧ b.take 4 = webmMagic := by
  simp only [is_webm, Bool.and_eq_true, beq_iff_eq, decide_eq_true_eq] at h
  exact h

theorem wav_ogg_incompat (b : ByteBuf) : (is_wav b && is_ogg b) = false := by
  cases hw : is_wav b
  · simp
  · cases ho : is_ogg b
    · simp
    · exfalso
      have h1 := (is_wav_spec b hw).2.1
      have h2 := (is_ogg_spec b ho).2
      rw [h1] at h2
      exact absurd h2 (by decide)

theorem wav_webm_incompat (b : ByteBuf) : (is_wav b && is_webm b) = false := by
  cases hw : is_wav b
  · simp
  · cases hm : is_webm b
    · simp
    · exfalso
      have h1 := (is_wav_spec b hw).2.1
      have h2 := (is_webm_spec b hm).2
      rw [h1] at h2
      exact absurd h2 (by decide)

theorem ogg_webm_incompat (b : ByteBuf) : (is_ogg b && is_webm b) = false := by
  cases ho : is_ogg b
  · simp
  · cases hm : is_webm b
    · simp
    · exfalso
      have h1 := (is_ogg_spec b ho).2
      have h2 := (is_webm_spec b hm).2
      rw [h1] at h2
      exact absurd h2 (by decide)

theorem ogg_not_wav (b : ByteBuf) (h : is_ogg b = true) : is_wav b = false := by
  cases hw : is_wav b
  · rfl
  · have := wav_ogg_incompat b
    rw [hw, h] at this
    exact absurd this (by decide)

theorem webm_not_wav (b : ByteBuf) (h : is_webm b = true) : is_wav b = false := by
  cases hw : is_wav b
  · rfl
  · have := wav_webm_incompat b
    rw [hw, h] at this
    exact absurd this (by decide)

theorem webm_not_ogg (b : ByteBuf) (h : is_webm b = true) : is_ogg b = false := by
  cases ho : is_ogg b
  · rfl
  · have := ogg_webm_incompat b
    rw [ho, h] at this
    exact absurd this (by decide)

theorem recognizeAttempt_eq_some (recognize : RecognitionConfig → Option (List (List String)))
    (cfg : RecognitionConfig) (t : String)
    (h : recognizeAttempt recognize cfg = some t) : t ≠ "" ∧ pyStrip t = t := by
  unfold recognizeAttempt at h
  cases hr : recognize cfg with
  | none => rw [hr] at h; exact absurd h (by simp)
  | some results =>
    rw [hr] at h
    simp only at h
    by_cases he : joinTranscripts results = ""
    · rw [if_pos he] at h
      exact absurd h (by simp)
    · rw [if_neg he] at h
      have ht : t = joinTranscripts results := (Option.some_inj.mp h).symm
      subst ht
      refine ⟨he, ?_⟩
      unfold joinTranscripts
      exact pyStrip_idem _

theorem runAttempts_all_none (recognize : RecognitionConfig → Option (List (List String))) :
    ∀ l : List RecognitionConfig,
      (∀ c ∈ l, recognizeAttempt recognize c = none) →
      runAttempts recognize l = (none, l) := by
  intro l
  induction l with
  | nil => intro _; rfl
  | cons c cs ih =>
    intro h
    have hc : recognizeAttempt recognize c = none := h c (by simp)
    have hcs := ih (fun x hx => h x (by simp [hx]))
    simp [runAttempts, hc, hcs]

theorem runAttempts_eq_some (recognize : RecognitionConfig → Option (List (List String))) :
    ∀ (l : List RecognitionConfig) (t : String),
      (runAttempts recognize l).1 = some t →
      ∃ cfg, recognizeAttempt recognize cfg = some t := by
  intro l
  induction l with
  | nil => intro t h; exact absurd h (by simp [runAttempts])
  | cons c cs ih =>
    intro t h
    cases hc : recognizeAttempt recognize c with
    | none =>
      simp only [runAttempts, hc] at h
      exact ih t h
    | some out =>
      by_cases ho : out = ""
      · simp only [runAttempts, hc, ho, if_true] at h
        exact ih t h
      · simp only [runAttempts, hc, ho, if_false] at h
        exact ⟨c, by rw [hc, h]⟩

/-- Claim C1: transcribe_with_google_stt builds its attempt list in a fixed
priority order — a LINEAR16 attempt if the bytes classify as WAV, then an
OGG_OPUS attempt if they classify as OGG, then a WEBM_OPUS attempt if they
classify as WEBM, and always a final ENCODING_UNSPECIFIED attempt appended
last; hence for a WAV buffer the first attempt uses LINEAR16, for an OGG
buffer the first attempt uses OGG_OPUS, and for a buffer matching none of
the three containers the only attempt is UNSPECIFIED. -/
theorem claim_C1_attempt_order (b : ByteBuf) (sr : Option Nat) (pl : String)
    (al : List String) :
    (∃ l, buildAttempts b sr pl al =
      l ++ [mkRecognitionConfig pl al .ENCODING_UNSPECIFIED sr]) ∧
    (is_wav b = true → (buildAttempts b sr pl al).head? =
      some (mkRecognitionConfig pl al .LINEAR16
        (pyOrNat sr (wav_samplerate_from_bytes b)))) ∧
    (is_ogg b = true → (buildAttempts b sr pl al).head? =
      some (mkRecognitionConfig pl al .OGG_OPUS sr)) ∧
    (is_webm b = true → (buildAttempts b sr pl al).head? =
      some (mkRecognitionConfig pl al .WEBM_OPUS sr)) ∧
    (is_wav b = false → is_ogg b = false → is_webm b = false →
      buildAttempts b sr pl al =
        [mkRecognitionConfig pl al .ENCODING_UNSPECIFIED sr]) := by
  refine ⟨?_, ?_, ?_, ?_, ?_⟩
  · refine ⟨(if is_wav b then
        [mkRecognitionConfig pl al .LINEAR16
          (pyOrNat sr (wav_samplerate_from_bytes b))] else []) ++
      ((if is_ogg b then [mkRecognitionConfig pl al .OGG_OPUS sr] else []) ++
       (if is_webm b then [mkRecognitionConfig pl al .WEBM_OPUS sr] else [])), ?_⟩
    simp [buildAttempts, List.append_assoc]
  · intro hw
    simp [buildAttempts, hw]
  · intro ho
    simp [buildAttempts, ogg_not_wav b ho, ho]
  · intro hm
    simp [buildAttempts, webm_not_wav b hm, webm_not_ogg b hm, hm]
  · intro h1 h2 h3
    simp [buildAttempts, h1, h2, h3]

/-- Witness for claim C1, exercising each hypothesis: a buffer with only the
RIFF/WAVE markers starts with a LINEAR16 attempt (its sample rate absent,
because no rate was declared and the WAV header cannot be parsed), a buffer
with only the OGG magic starts with an OGG_OPUS attempt, and the empty
buffer gets exactly one UNSPECIFIED attempt. -/
theorem claim_C1_witness :
    (buildAttempts wavMarkerOnly none "en-US" []).head? =
      some (mkRecognitionConfig "en-US" [] .LINEAR16 none) ∧
    (buildAttempts oggMarkerOnly none "en-US" []).head? =
      some (mkRecognitionConfig "en-US" [] .OGG_OPUS none) ∧
    buildAttempts [] none "en-US" [] =
      [mkRecognitionConfig "en-US" [] .ENCODING_UNSPECIFIED none] := by
  refine ⟨?_, ?_, ?_⟩
  · have h := (claim_C1_attempt_order wavMarkerOnly none "en-US" []).2.1 (by decide)
    exact h.trans (by decide)
  · exact (claim_C1_attempt_order oggMarkerOnly none "en-US" []).2.2.1 (by decide)
  · exact (claim_C1_attempt_order [] none "en-US" []).2.2.2.2
      (by decide) (by decide) (by decide)

/-- Claim C2: the attempts are evaluated strictly in order with early exit —
if every attempt before some attempt `cfg` yields no transcript and `cfg`
yields transcript `t` (non-empty after stripping), the loop returns `t`
having invoked exactly the attempts up to and including `cfg`, so no later
attempt's external call is issued; consequently whenever the built attempt
list decomposes that way, transcribe_with_google_stt returns `t`. -/
theorem claim_C2_early_exit
    (recognize : RecognitionConfig → Option (List (List String))) :
    ∀ (pre : List RecognitionConfig) (cfg : RecognitionConfig)
      (post : List RecognitionConfig) (t : String),
      (∀ c ∈ pre, recognizeAttempt recognize c = none) →
      recognizeAttempt recognize cfg = some t →
      runAttempts recognize (pre ++ cfg :: post) = (some t, pre ++ [cfg]) ∧
      ∀ (b : ByteBuf) (sr : Option Nat) (pl : String) (al : List String),
        buildAttempts b sr pl al = pre ++ cfg :: post →
        transcribe_with_google_stt recognize b sr pl al = some t := by
  have hmain : ∀ (pre : List RecognitionConfig) (cfg : RecognitionConfig)
      (post : List RecognitionConfig) (t : String),
      (∀ c ∈ pre, recognizeAttempt recognize c = none) →
      recognizeAttempt recognize cfg = some t →
      runAttempts recognize (pre ++ cfg :: post) = (some t, pre ++ [cfg]) := by
    intro pre
    induction pre with
    | nil =>
      intro cfg post t _ ht
      have hne := (recognizeAttempt_eq_some recognize cfg t ht).1
      simp [runAttempts, ht, hne]
    | cons c cs ih =>
      intro cfg post t hpre ht
      have hc : recognizeAttempt recognize c = none := hpre c (by simp)
      have ih2 := ih cfg post t (fun x hx => hpre x (by simp [hx])) ht
      simp [runAttempts, hc, ih2]
  intro pre cfg post t hpre ht
  refine ⟨hmain pre cfg post t hpre ht, ?_⟩
  intro b sr pl al hb
  unfold transcribe_with_google_stt
  rw [hb, hmain pre cfg post t hpre ht]

/-- Witness for claim C2: of three attempts, the first yields an empty
transcript, the second the text "second text"; the pipeline returns the
second attempt's text and the third attempt is never invoked. -/
theorem claim_C2_witness :
    runAttempts recognizeSecond [cfgLinear, cfgOgg, cfgWebm] =
      (some "second text", [cfgLinear, cfgOgg]) := by
  have h := (claim_C2_early_exit recognizeSecond [cfgLinear] cfgOgg [cfgWebm]
    "second text" (by decide) (by decide)).1
  simpa using h

/-- Claim C3: if the external recognition call raises on every attempt,
transcribe_with_google_stt returns None (the explicit no-transcript outcome)
rather than raising — the embedding is a total function, so no exception can
propagate — and a failing attempt does not abort the pipeline: the loop
continues with the remaining attempts unchanged. -/
theorem claim_C3_failures_swallowed
    (recognize : RecognitionConfig → Option (List (List String)))
    (b : ByteBuf) (sr : Option Nat) (pl : String) (al : List String) :
    ((∀ cfg, recognize cfg = none) →
      transcribe_with_google_stt recognize b sr pl al = none) ∧
    (∀ (cfg : RecognitionConfig) (rest : List RecognitionConfig),
      recognize cfg = none →
      runAttempts recognize (cfg :: rest) =
        ((runAttempts recognize rest).1, cfg :: (runAttempts recognize rest).2)) := by
  constructor
  · intro hfail
    unfold transcribe_with_google_stt
    rw [runAttempts_all_none recognize _
      (fun c _ => by simp [recognizeAttempt, hfail c])]
  · intro cfg rest hcfg
    simp [runAttempts, recognizeAttempt, hcfg]

/-- Witness for claim C3: with an oracle that raises on every attempt, the
pipeline returns None on an empty buffer, and a failing first attempt still
lets the second attempt run. -/
theorem claim_C3_witness :
    transcribe_with_google_stt (fun _ => none) [] none "en-US" [] = none ∧
    runAttempts (fun _ => none) [cfgLinear, cfgOgg] =
      ((runAttempts (fun _ => none) [cfgOgg]).1,
        cfgLinear :: (runAttempts (fun _ => none) [cfgOgg]).2) := by
  constructor
  · exact (claim_C3_failures_swallowed (fun _ => none) [] none "en-US" []).1
      (fun _ => rfl)
  · exact (claim_C3_failures_swallowed (fun _ => none) [] none "en-US" []).2
      cfgLinear [cfgOgg] rfl

/-- Claim C4: the sniffer classification is a pure total function of the
leading bytes — every buffer shorter than 4 bytes classifies as none of WAV,
OGG, WEBM, and every buffer of length at least 12 whose first 4 bytes are
the RIFF marker and whose bytes 8–11 are the WAVE marker classifies as WAV
regardless of all other bytes.  (Totality — never raising — is structural:
`is_wav`, `is_ogg`, `is_webm` are total Lean functions.) -/
theorem claim_C4_sniffer_prefix_only (b : ByteBuf) :
    (b.length < 4 →
      is_wav b = false ∧ is_ogg b = false ∧ is_webm b = false) ∧
    (12 ≤ b.length → b.take 4 = riffMagic → (b.drop 8).take 4 = waveMagic →
      is_wav b = true) := by
  constructor
  · intro h
    refine ⟨?_, ?_, ?_⟩
    · simp only [is_wav]
      rw [decide_eq_false (by omega)]
      simp
    · simp only [is_ogg]
      rw [decide_eq_false (by omega)]
      simp
    · simp only [is_webm]
      rw [decide_eq_false (by omega)]
      simp
  · intro h1 h2 h3
    simp [is_wav, h1, h2, h3]

/-- Witness for claim C4: a 1-byte buffer classifies as none of the three
containers, and the 12-byte buffer holding only the RIFF/WAVE markers
classifies as WAV. -/
theorem claim_C4_witness :
    (is_wav [0x52] = false ∧ is_ogg [0x52] = false ∧ is_webm [0x52] = false) ∧
    is_wav wavMarkerOnly = true := by
  constructor
  · exact (claim_C4_sniffer_prefix_only [0x52]).1 (by decide)
  · exact (claim_C4_sniffer_prefix_only wavMarkerOnly).2
      (by decide) (by decide) (by decide)

/-- Claim C5 counterexample: the claim says undecodable byte sequences are
replaced; the code decodes with errors="ignore", which drops them.  For the
txt file with content 0x68 0xFF 0x69 the code returns "hi", while decoding
with replacement (the behaviour the claim describes) yields h U+FFFD i, a
different string. -/
theorem claim_C5_counterexample :
    extract_text_from_file (fun _ => none) (fun _ => none) (fun _ => none)
      ⟨"note.txt", [0x68, 0xFF, 0x69]⟩ = some "hi" ∧
    decodeUtf8ReplaceSpec [0x68, 0xFF, 0x69] = "h�i" ∧
    ("hi" : String) ≠ "h�i" := by
  refine ⟨by decide, by decide, by decide⟩

/-- Claim C5 (amended): for every uploaded file whose filename extension is
txt (compared lowercase), extract_text_from_file returns the string obtained
by decoding the file's bytes as UTF-8 with undecodable byte sequences
dropped (errors="ignore") rather than failing; in particular a txt file
containing invalid UTF-8 still returns a string (offending bytes removed),
never raising. -/
theorem claim_C5_txt_decode_ignore
    (pdfReader : ByteBuf → Option (List (Option String)))
    (readCsv readExcel : ByteBuf → Option String)
    (file : UploadedFile) (h : fileExt file.name = "txt") :
    extract_text_from_file pdfReader readCsv readExcel file =
      some (decodeUtf8Ignore file.content) := by
  simp [extract_text_from_file, h]

/-- Witness for the amended claim C5: a file named with an uppercase TXT
extension whose content is the invalid sequence 0xC3 0x28 still yields a
string — the undecodable lead byte is dropped and "(" remains. -/
theorem claim_C5_witness :
    extract_text_from_file (fun _ => none) (fun _ => none) (fun _ => none)
      ⟨"data.TXT", [0xC3, 0x28]⟩ = some "(" := by
  have h := claim_C5_txt_decode_ignore (fun _ => none) (fun _ => none)
    (fun _ => none) ⟨"data.TXT", [0xC3, 0x28]⟩ (by decide)
  exact h.trans (by decide)

/-- Claim C6: wav_samplerate_from_bytes either returns the WAV header frame
rate or None, never raising (it is a total function into Option): on the
minimal well-formed 16 kHz mono WAV it returns 16000, on a truncated header
it returns None, and on any buffer that does not even carry the RIFF/WAVE
markers (any non-WAV input) it returns None. -/
theorem claim_C6_wav_samplerate :
    wav_samplerate_from_bytes goodWav16k = some 16000 ∧
    wav_samplerate_from_bytes (goodWav16k.take 20) = none ∧
    ∀ b : ByteBuf, is_wav b = false → wav_samplerate_from_bytes b = none := by
  refine ⟨by decide, by decide, ?_⟩
  intro b hb
  unfold wav_samplerate_from_bytes
  split_ifs with h1 h2 h3
  · rfl
  · rfl
  · rfl
  · show (if (b.drop 8).take (min 4 (leU32 ((b.drop 4).take 4))) ≠ waveMagic then none
        else waveLoop b (leU32 ((b.drop 4).take 4))
          ((b.drop 8).take (min 4 (leU32 ((b.drop 4).take 4)))).length
          (leU32 ((b.drop 4).take 4) + 1) none) = none
    by_cases hw : (b.drop 8).take (min 4 (leU32 ((b.drop 4).take 4))) = waveMagic
    · exfalso
      have hlen4 : ((b.drop 8).take (min 4 (leU32 ((b.drop 4).take 4)))).length = 4 := by
        rw [hw]; rfl
      rw [List.length_take, List.length_drop] at hlen4
      have hs : min 4 (leU32 ((b.drop 4).take 4)) = 4 := by omega
      rw [hs] at hw
      have hblen : 12 ≤ b.length := by omega
      have hwav : is_wav b = true := by
        simp [is_wav, hblen, not_not.mp h3, hw]
      rw [hb] at hwav
      exact Bool.false_ne_true hwav
    · rw [if_pos hw]

/-- Witness for claim C6 (third conjunct): the buffer holding only the OGG
magic is not WAV, and the parser returns None on it. -/
theorem claim_C6_witness :
    wav_samplerate_from_bytes oggMarkerOnly = none :=
  claim_C6_wav_samplerate.2.2 oggMarkerOnly (by decide)

/-- Claim C7 counterexample: the claim says the pdf branch returns "the
concatenation of the text of all pages whose extraction succeeds, in
original page order".  For a pdf whose three pages all succeed with texts
"", "a" and "b", the code returns "a\nb": the empty text is skipped and the
remaining texts are joined with a newline, which matches neither plain
concatenation of the successful texts ("ab") nor their newline join
("\na\nb"). -/
theorem claim_C7_counterexample :
    extract_text_from_file (fun _ => some [some "", some "a", some "b"])
      (fun _ => none) (fun _ => none) ⟨"doc.pdf", []⟩ = some "a\nb" ∧
    pdfConcatSpec [some "", some "a", some "b"] = "ab" ∧
    pdfNewlineJoinSpec [some "", some "a", some "b"] = "\na\nb" ∧
    ("a\nb" : String) ≠ "ab" ∧ ("a\nb" : String) ≠ "\na\nb" := by
  refine ⟨by decide, by decide, by decide, by decide, by decide⟩

/-- Claim C7 (amended): for every uploaded file whose filename extension is
pdf (compared lowercase) and whose reader yields pages, extract_text_from_file
returns the non-empty texts of the pages whose extraction succeeds, in
original page order, joined with a newline separator, silently skipping
every page whose extraction throws and every page whose extracted text is
empty; if no page yields non-empty text it returns None (the no-text
outcome); a page failure never causes the extraction to raise — in
particular, if only the second page of three throws and the others have
non-empty texts, the result is their newline-joined texts in page order. -/
theorem claim_C7_pdf_skips_failed_pages
    (pdfReader : ByteBuf → Option (List (Option String)))
    (readCsv readExcel : ByteBuf → Option String)
    (file : UploadedFile) (pageTexts : List (Option String))
    (hext : fileExt file.name = "pdf")
    (hpdf : pdfReader file.content = some pageTexts) :
    (extract_text_from_file pdfReader readCsv readExcel file =
      (if pdfPages pageTexts = [] then none
       else some (String.intercalate "\n" (pdfPages pageTexts)))) ∧
    (∀ t1 t3 : String, t1 ≠ "" → t3 ≠ "" →
      pageTexts = [some t1, none, some t3] →
      extract_text_from_file pdfReader readCsv readExcel file =
        some (t1 ++ "\n" ++ t3)) := by
  have hfx : fileExt file.name ≠ "txt" := by rw [hext]; decide
  constructor
  · simp [extract_text_from_file, hext, hfx, hpdf]
  · intro t1 t3 h1 h3 hp
    subst hp
    simp [extract_text_from_file, hext, hfx, hpdf, pdfPages, h1, h3]
    rfl

/-- Witness for the amended claim C7: a three-page pdf whose second page
throws and whose other pages have texts "one" and "three" yields their
newline-joined texts in page order. -/
theorem claim_C7_witness :
    extract_text_from_file (fun _ => some [some "one", none, some "three"])
      (fun _ => none) (fun _ => none) ⟨"r.pdf", []⟩ = some "one\nthree" := by
  have h := (claim_C7_pdf_skips_failed_pages
    (fun _ => some [some "one", none, some "three"]) (fun _ => none)
    (fun _ => none) ⟨"r.pdf", []⟩ [some "one", none, some "three"]
    (by decide) rfl).2 "one" "three" (by decide) (by decide) rfl
  exact h.trans (by decide)

/-- Claim C8: in the Generate Audio handler, whenever the cached translated
text T is non-empty, the synthesized text is derived from T alone (T after
stripping) and is independent of the cached input text; the raw input text
is used for synthesis only when the translated slot is empty. -/
theorem claim_C8_synthesis_prefers_translated (T I J : String) :
    (T ≠ "" →
      generateAudioText T I =
        (if pyStrip T = "" then none else some (pyStrip T)) ∧
      generateAudioText T I = generateAudioText T J) ∧
    (∀ s, generateAudioText "" I = some s → s = pyStrip I) := by
  constructor
  · intro hT
    constructor
    · simp [generateAudioText, pyOrStr, hT]
    · simp [generateAudioText, pyOrStr, hT]
  · intro s hs
    by_cases hI : I = ""
    · subst hI
      have hnone : generateAudioText "" "" = none := by decide
      rw [hnone] at hs
      exact absurd hs (by simp)
    · have e1 : pyOrStr "" I = I := by simp [pyOrStr]
      have e2 : pyOrStr I "" = I := by simp [pyOrStr, hI]
      simp only [generateAudioText, e1, e2] at hs
      by_cases h2 : pyStrip I = ""
      · rw [if_pos h2] at hs
        exact absurd hs (by simp)
      · rw [if_neg h2] at hs
        exact (Option.some_inj.mp hs).symm

/-- Witness for claim C8: with translated text " Bonjour " and input text
"Hello", the synthesized text is the stripped translated text "Bonjour",
independent of the input slot; and in the empty-translation case the
synthesized text is the stripped input text. -/
theorem claim_C8_witness :
    generateAudioText " Bonjour " "Hello" = some "Bonjour" ∧
    generateAudioText " Bonjour " "Hello" = generateAudioText " Bonjour " "Other" ∧
    "Hello" = pyStrip "Hello" := by
  obtain ⟨h1, h2⟩ :=
    (claim_C8_synthesis_prefers_translated " Bonjour " "Hello" "Other").1 (by decide)
  refine ⟨h1.trans (by decide), h2, ?_⟩
  exact (claim_C8_synthesis_prefers_translated "" "Hello" "Other").2 "Hello" (by decide)

/-- Claim C9: the WAV, OGG and WEBM classifications are pairwise
incompatible (their 4-byte magic prefixes differ), so the attempt list of
transcribe_with_google_stt always has length exactly 1 or 2 — at most one
container-specific attempt followed by the final UNSPECIFIED attempt. -/
theorem claim_C9_at_most_one_container (b : ByteBuf) (sr : Option Nat)
    (pl : String) (al : List String) :
    ((is_wav b && is_ogg b) = false ∧ (is_wav b && is_webm b) = false ∧
      (is_ogg b && is_webm b) = false) ∧
    ((buildAttempts b sr pl al).length = 1 ∨
      (buildAttempts b sr pl al).length = 2) := by
  refine ⟨⟨wav_ogg_incompat b, wav_webm_incompat b, ogg_webm_incompat b⟩, ?_⟩
  cases hw : is_wav b
  · cases ho : is_ogg b
    · cases hm : is_webm b
      · left
        simp [buildAttempts, hw, ho, hm]
      · right
        simp [buildAttempts, hw, ho, hm]
    · cases hm : is_webm b
      · right
        simp [buildAttempts, hw, ho, hm]
      · exfalso
        have h := ogg_webm_incompat b
        rw [ho, hm] at h
        exact absurd h (by decide)
  · cases ho : is_ogg b
    · cases hm : is_webm b
      · right
        simp [buildAttempts, hw, ho, hm]
      · exfalso
        have h := wav_webm_incompat b
        rw [hw, hm] at h
        exact absurd h (by decide)
    · exfalso
      have h := wav_ogg_incompat b
      rw [hw, ho] at h
      exact absurd h (by decide)

/-- Claim C10: whenever transcribe_with_google_stt returns a transcript, the
string is non-empty and fixed under stripping (no leading or trailing
whitespace); and each attempt's result is the single-space join of the first
alternative of each result segment (segments with no alternatives skipped),
stripped, with an empty-after-stripping result converted to the no-result
outcome for that attempt. -/
theorem claim_C10_transcript_is_stripped_nonempty
    (recognize : RecognitionConfig → Option (List (List String)))
    (b : ByteBuf) (sr : Option Nat) (pl : String) (al : List String)
    (s : String)
    (h : transcribe_with_google_stt recognize b sr pl al = some s) :
    (s ≠ "" ∧ pyStrip s = s) ∧
    ∀ (cfg : RecognitionConfig) (results : List (List String)),
      recognize cfg = some results →
      recognizeAttempt recognize cfg =
        (if joinTranscripts results = "" then none
         else some (joinTranscripts results)) := by
  constructor
  · have h' : (runAttempts recognize (buildAttempts b sr pl al)).1 = some s := h
    obtain ⟨cfg, hcfg⟩ :=
      runAttempts_eq_some recognize (buildAttempts b sr pl al) s h'
    exact recognizeAttempt_eq_some recognize cfg s hcfg
  · intro cfg results hr
    simp [recognizeAttempt, hr]

/-- Witness for claim C10: an oracle answering with the segments
[["hello"], [], ["world"]] makes the pipeline return "hello world" — the
single-space join of the first alternatives with the empty segment skipped —
which is non-empty and already stripped. -/
theorem claim_C10_witness :
    transcribe_with_google_stt recognizeHello [] none "en-US" [] =
      some "hello world" ∧
    "hello world" ≠ "" ∧ pyStrip "hello world" = "hello world" := by
  have h : transcribe_with_google_stt recognizeHello [] none "en-US" [] =
      some "hello world" := by decide
  obtain ⟨⟨h1, h2⟩, _⟩ := claim_C10_transcript_is_stripped_nonempty
    recognizeHello [] none "en-US" [] "hello world" h
  exact ⟨h, h1, h2⟩
